import Mathlib

/-!
Verification development for `rwols::SafeQueue` (include/rwols/SafeQueue.hpp).

The C++ class guards every state mutation by a single mutex
(`mMutex`), so each public operation is one atomic transition on the
state `(mQ, mUnfinishedTasks)`.  We embed that state shallowly:

* `SafeQueue T` holds the item buffer `mQ` (a `std::queue`, front at the
  head of the list, push at the tail) and the counter `mUnfinishedTasks`
  (`std::size_t`; the asserted invariant keeps it in `Nat` range, and a
  separate `TaskDoneNDEBUG` models the unchecked wrap-around build).
* Blocking operations are embedded as the atomic transition taken once
  the wait predicate holds: `Pop` yields `none` while the wait predicate
  `!mQ.empty()` is false (the caller stays blocked), `JoinReturns`
  is the wait predicate of `Join` / the second phase of `PushAndJoin`.
* The fallible timed dequeues return `Except TimeoutError` paired with
  the post-state.
* `TaskDoneGuard` stores the `SafeQueue* mQ` back-pointer as
  `Option Nat` (an abstract address, `none` = `nullptr`); the destructor
  body `if (mQ) mQ->TaskDone();` is embedded as the list of `TaskDone`
  invocations it performs (`finalizeCalls`).
-/

namespace rwols

/-- `class TimeoutError final : public std::exception`, thrown by the timed
`Pop`/`PopWithGuard` overloads. -/
inductive TimeoutError where
  | timeout
deriving DecidableEq, Repr

/-- The jointly-guarded state of `SafeQueue<T>`: the item buffer
`std::queue<value_type> mQ` (head of the list = front of the queue) and the
in-flight counter `std::size_t mUnfinishedTasks = 0`. -/
structure SafeQueue (T : Type) where
  mQ : List T
  mUnfinishedTasks : Nat
deriving DecidableEq, Repr

/-- `struct TaskDoneGuard`: holds `SafeQueue *mQ = nullptr`; the pointer is
modelled as an abstract queue address, `none` standing for `nullptr`. -/
structure TaskDoneGuard where
  mQ : Option Nat
deriving DecidableEq, Repr

namespace SafeQueue

variable {T : Type}

/-- A freshly constructed `SafeQueue`: empty buffer, `mUnfinishedTasks = 0`. -/
def emptyQueue : SafeQueue T := ⟨[], 0⟩

/-- `Push(item)`: under the lock, `mQ.push(item); ++mUnfinishedTasks;` then
`mNotEmpty.notify_one()` (the wake-up is captured by the wait predicates of
the blocking operations). -/
def Push (q : SafeQueue T) (item : T) : SafeQueue T :=
  { q with mQ := q.mQ ++ [item], mUnfinishedTasks := q.mUnfinishedTasks + 1 }

/-- `Emplace(args...)`: `mQ.emplace(...); ++mUnfinishedTasks;` — the same
state transition as `Push` with the constructed item. -/
def Emplace (q : SafeQueue T) (item : T) : SafeQueue T :=
  Push q item

/-- `Pop()`: waits on `mNotEmpty` until `!mQ.empty()`, then moves out
`mQ.front()` and pops it.  `none` models the caller still blocked (the wait
predicate is false in this state). -/
def Pop (q : SafeQueue T) : Option (T × SafeQueue T) :=
  match q.mQ with
  | [] => none
  | x :: xs => some (x, { q with mQ := xs })

/-- `Pop(timeout)`: `wait_for` returns true iff the predicate `!mQ.empty()`
became true within the timeout; then front is moved out and popped, else
`throw TimeoutError()`.  The embedding is the transition at expiry/success:
the pair is (result, post-state). -/
def PopTimeout (q : SafeQueue T) : Except TimeoutError T × SafeQueue T :=
  match q.mQ with
  | [] => (Except.error TimeoutError.timeout, q)
  | x :: xs => (Except.ok x, { q with mQ := xs })

/-- `PopWithGuard()`: `std::make_pair(Pop(), TaskDoneGuard(this))`; `self` is
the abstract address of `this`. -/
def PopWithGuard (self : Nat) (q : SafeQueue T) :
    Option ((T × TaskDoneGuard) × SafeQueue T) :=
  match Pop q with
  | none => none
  | some (x, q2) => some ((x, ⟨some self⟩), q2)

/-- The order in which C++14 may evaluate the two arguments of
`std::make_pair(Pop(timeout), TaskDoneGuard(this))` — the order is
unspecified, so a faithful embedding must cover both. -/
inductive ArgEvalOrder where
  | popFirst
  | guardFirst
deriving DecidableEq, Repr

/-- `TaskDone()`: `assert(mUnfinishedTasks > 0); --mUnfinishedTasks;` and
notify `mAllTasksDone` when the counter reaches 0.  `none` models the fatal
assertion failure (abort), not a recoverable result. -/
def TaskDone (q : SafeQueue T) : Option (SafeQueue T) :=
  if 0 < q.mUnfinishedTasks then
    some { q with mUnfinishedTasks := q.mUnfinishedTasks - 1 }
  else
    none

/-- `PopWithGuard(timeout)`:
`return std::make_pair(Pop(timeout), TaskDoneGuard(this));` with the
C++14-unspecified argument evaluation order made explicit:

* `popFirst`: `Pop(timeout)` runs before the guard is constructed; on
  `throw TimeoutError()` no guard ever exists and the state is unchanged.
* `guardFirst`: the temporary `TaskDoneGuard(this)` is fully constructed
  before `Pop(timeout)` runs; when `Pop(timeout)` throws, stack unwinding
  destroys that temporary and its destructor runs `mQ->TaskDone()` —
  decrementing `mUnfinishedTasks`, or aborting on the `TaskDone` assertion
  when the counter is 0 (the outer `none`).  On success the temporary is
  moved into the pair (the moved-from temporary is inert), so both orders
  agree on the success path. -/
def PopWithGuardTimeout (ord : ArgEvalOrder) (self : Nat) (q : SafeQueue T) :
    Option (Except TimeoutError (T × TaskDoneGuard) × SafeQueue T) :=
  match ord with
  | ArgEvalOrder.popFirst =>
    match PopTimeout q with
    | (Except.error e, q2) => some (Except.error e, q2)
    | (Except.ok x, q2) => some (Except.ok (x, ⟨some self⟩), q2)
  | ArgEvalOrder.guardFirst =>
    match PopTimeout q with
    | (Except.error e, q2) =>
      match q2.TaskDone with
      | none => none
      | some q3 => some (Except.error e, q3)
    | (Except.ok x, q2) => some (Except.ok (x, ⟨some self⟩), q2)

/-- The wait predicate of `Join()`:
`mAllTasksDone.wait(lock, [this]{ return mUnfinishedTasks == 0; })` — `Join`
returns from this state iff the predicate holds; it mutates nothing. -/
def JoinReturns (q : SafeQueue T) : Bool :=
  q.mUnfinishedTasks == 0

/-- The atomic first phase of `PushAndJoin(item)` (all under one lock):
`mQ.push(item); ++mUnfinishedTasks; mNotEmpty.notify_one();` — after which
the caller waits on `mAllTasksDone`. -/
def PushAndJoinStep (q : SafeQueue T) (item : T) : SafeQueue T :=
  { q with mQ := q.mQ ++ [item], mUnfinishedTasks := q.mUnfinishedTasks + 1 }

/-- The wait predicate of the second phase of `PushAndJoin`:
`mAllTasksDone.wait(lock, [this]{ return mUnfinishedTasks == 0; })`. -/
def PushAndJoinReturns (q : SafeQueue T) : Bool :=
  q.mUnfinishedTasks == 0

/-- `Push(es)` folded over a list: the single producer enqueuing
`es₀, es₁, …` in order. -/
def pushAll (q : SafeQueue T) (items : List T) : SafeQueue T :=
  items.foldl Push q

/-- `n` consecutive `Pop()` calls by a single consumer, collecting the
dequeued items in order; `none` if some `Pop` would block. -/
def popN : Nat → SafeQueue T → Option (List T × SafeQueue T)
  | 0, q => some ([], q)
  | n + 1, q =>
    match Pop q with
    | none => none
    | some (x, q2) =>
      match popN n q2 with
      | none => none
      | some (xs, qf) => some (x :: xs, qf)

end SafeQueue

/-- One linearized operation on the queue.  Every public member runs under
`mMutex`, so an arbitrary concurrent interleaving is a sequence of these
atomic transitions. -/
inductive Op (T : Type) where
  | push (item : T)
  | emplace (item : T)
  | pop
  | taskDone
deriving DecidableEq, Repr

namespace Op

variable {T : Type}

/-- The atomic transition of one operation; `none` when the operation cannot
complete in this state (`pop` blocked on an empty buffer, `taskDone`
aborting on its assertion). -/
def applyOp (q : SafeQueue T) : Op T → Option (SafeQueue T)
  | push item => some (q.Push item)
  | emplace item => some (q.Emplace item)
  | pop =>
    match q.Pop with
    | none => none
    | some (_, q2) => some q2
  | taskDone => q.TaskDone

/-- Run a linearized history of operations from a state. -/
def runOps : List (Op T) → SafeQueue T → Option (SafeQueue T)
  | [], q => some q
  | op :: ops, q =>
    match applyOp q op with
    | none => none
    | some q2 => runOps ops q2

/-- Number of enqueue operations (`Push` or `Emplace` calls) in a history. -/
def countEnqueues : List (Op T) → Nat
  | [] => 0
  | push _ :: ops => countEnqueues ops + 1
  | emplace _ :: ops => countEnqueues ops + 1
  | pop :: ops => countEnqueues ops
  | taskDone :: ops => countEnqueues ops

/-- Number of `TaskDone` signals in a history. -/
def countTaskDones : List (Op T) → Nat
  | [] => 0
  | taskDone :: ops => countTaskDones ops + 1
  | push _ :: ops => countTaskDones ops
  | emplace _ :: ops => countTaskDones ops
  | pop :: ops => countTaskDones ops

end Op

namespace TaskDoneGuard

/-- Whether a guard currently owns the completion responsibility
(`mQ != nullptr`). -/
def Responsible (g : TaskDoneGuard) : Bool :=
  g.mQ.isSome

/-- Whether a guard is inert (`mQ == nullptr`): finalization is a no-op. -/
def Inert (g : TaskDoneGuard) : Bool :=
  g.mQ.isNone

/-- Move constructor `TaskDoneGuard(TaskDoneGuard &&other) : mQ(other.mQ)
{ other.mQ = nullptr; }` — returns (new guard, `other` afterwards). -/
def moveCtor (other : TaskDoneGuard) : TaskDoneGuard × TaskDoneGuard :=
  (⟨other.mQ⟩, ⟨none⟩)

/-- Move assignment `operator=(TaskDoneGuard &&other)`:
`mQ = other.mQ; other.mQ = nullptr;` for distinct objects — returns
(`*this` afterwards, `other` afterwards).  The previous value of `mQ` is
overwritten; the body performs no `TaskDone` call. -/
def moveAssign (dst other : TaskDoneGuard) : TaskDoneGuard × TaskDoneGuard :=
  (⟨other.mQ⟩, ⟨none⟩)

/-- Self move assignment `g = std::move(g)`: with `this == &other`,
`mQ = other.mQ` leaves `mQ` unchanged and `other.mQ = nullptr` then nulls
it, so the guard ends inert whatever its prior state. -/
def selfMoveAssign (g : TaskDoneGuard) : TaskDoneGuard :=
  ⟨none⟩

/-- The `TaskDone()` invocations the destructor
`~TaskDoneGuard() { if (mQ) mQ->TaskDone(); }` performs: one call on the
bound queue when responsible, none when inert. -/
def finalizeCalls (g : TaskDoneGuard) : List Nat :=
  match g.mQ with
  | some a => [a]
  | none => []

/-- All `TaskDone()` invocations made when a collection of guards is
finalized. -/
def allFinalizeCalls : List TaskDoneGuard → List Nat
  | [] => []
  | g :: gs => finalizeCalls g ++ allFinalizeCalls gs

/-- Move a guard through `n` further scopes by move construction, listing
every guard object that ever existed: each moved-from source followed by
the final holder. -/
def moveChain : Nat → TaskDoneGuard → List TaskDoneGuard
  | 0, g => [g]
  | n + 1, g => (moveCtor g).2 :: moveChain n (moveCtor g).1

end TaskDoneGuard

namespace SafeQueue

/-- `--mUnfinishedTasks` on `std::size_t` with assertions compiled out
(`NDEBUG`): plain unsigned decrement, i.e. arithmetic modulo `2 ^ w` for
machine word width `w`. -/
def sizetDec (w c : Nat) : Nat :=
  (c + (2 ^ w - 1)) % 2 ^ w

/-- `TaskDone()` in an `NDEBUG` build: the `assert` is a no-op, the
`std::size_t` counter is decremented modulo `2 ^ w`, and
`mAllTasksDone.notify_all()` fires iff the new counter is 0.  Returns
(post-state, whether the drain notification was issued). -/
def TaskDoneNDEBUG (w : Nat) {T : Type} (q : SafeQueue T) : SafeQueue T × Bool :=
  ({ q with mUnfinishedTasks := sizetDec w q.mUnfinishedTasks },
    sizetDec w q.mUnfinishedTasks == 0)

end SafeQueue

/-!  Theorems settling the claims.  -/

open SafeQueue TaskDoneGuard Op

/-- Claim C4: under the precondition `mUnfinishedTasks > 0`, `TaskDone`
decrements the counter by exactly one and leaves the item buffer (the only
other queue state) unchanged; with `mUnfinishedTasks == 0` the assertion
branch aborts (`none`) and is never converted into a normal result or a
wrapped counter value. -/
theorem C4_taskdone_contract {T : Type} (q : SafeQueue T) :
    (0 < q.mUnfinishedTasks →
      q.TaskDone = some ⟨q.mQ, q.mUnfinishedTasks - 1⟩) ∧
    (q.mUnfinishedTasks = 0 → q.TaskDone = none) := by
  constructor
  · intro h
    simp [TaskDone, h]
  · intro h
    simp [TaskDone, h]

/-- Witness for C4 at the concrete states `⟨[5], 2⟩` and `⟨[5], 0⟩`. -/
theorem C4_taskdone_contract_witness :
    ((0 < 2 → (⟨[5], 2⟩ : SafeQueue Nat).TaskDone = some ⟨[5], 1⟩) ∧
      (2 = 0 → (⟨[5], 2⟩ : SafeQueue Nat).TaskDone = none)) ∧
    ((0 < 0 → (⟨[5], 0⟩ : SafeQueue Nat).TaskDone = some ⟨[5], 0 - 1⟩) ∧
      (0 = 0 → (⟨[5], 0⟩ : SafeQueue Nat).TaskDone = none)) :=
  ⟨C4_taskdone_contract ⟨[5], 2⟩, C4_taskdone_contract ⟨[5], 0⟩⟩

/-- Claim C8: on a non-empty queue, `Pop` removes and returns exactly the
head item; the post-state is the tail with `mUnfinishedTasks` (the only
other field) unchanged. -/
theorem C8_pop_frame {T : Type} (q : SafeQueue T) (x : T) (xs : List T)
    (h : q.mQ = x :: xs) :
    q.Pop = some (x, ⟨xs, q.mUnfinishedTasks⟩) := by
  simp [Pop, h]

/-- Witness for C8 at the concrete state `⟨[7, 8], 5⟩`. -/
theorem C8_pop_frame_witness :
    (⟨[7, 8], 5⟩ : SafeQueue Nat).mQ = 7 :: [8] ∧
    (⟨[7, 8], 5⟩ : SafeQueue Nat).Pop = some (7, ⟨[8], 5⟩) :=
  ⟨rfl, C8_pop_frame ⟨[7, 8], 5⟩ 7 [8] rfl⟩

/-- Claim C3 evaluated at its failing input.  `Pop(timeout)` itself is as
the claim says: on an empty buffer it fails with exactly a `TimeoutError`
and returns the state unchanged — and so does `PopWithGuard(timeout)`
under the pop-first argument evaluation order.  But C++14 leaves the
evaluation order of `make_pair(Pop(timeout), TaskDoneGuard(this))`
unspecified, and under the equally legal guard-first order the timed-out
`PopWithGuard` destroys the already-constructed guard temporary during
unwinding, invoking `TaskDone`: from `⟨[], 1⟩` it returns the
`TimeoutError` with `mUnfinishedTasks` decremented to 0 (a completion
signal was issued), and from the drained state `⟨[], 0⟩` it trips the
`TaskDone` assertion and aborts instead of returning the timeout.  The
repository's own Stress test relies on catching `TimeoutError` from
`PopWithGuard(timeout)` on a drained queue as normal control flow, so the
claim states the intent and the code is the slip. -/
theorem C3_timeout_guard_side_effect :
    (⟨[], 1⟩ : SafeQueue Nat).PopTimeout =
      (Except.error TimeoutError.timeout, ⟨[], 1⟩) ∧
    PopWithGuardTimeout ArgEvalOrder.popFirst 0 (⟨[], 1⟩ : SafeQueue Nat) =
      some (Except.error TimeoutError.timeout, ⟨[], 1⟩) ∧
    PopWithGuardTimeout ArgEvalOrder.guardFirst 0 (⟨[], 1⟩ : SafeQueue Nat) =
      some (Except.error TimeoutError.timeout, ⟨[], 0⟩) ∧
    PopWithGuardTimeout ArgEvalOrder.guardFirst 0 (⟨[], 0⟩ : SafeQueue Nat) =
      none :=
  ⟨rfl, rfl, rfl, rfl⟩

theorem pushAll_mQ {T : Type} :
    ∀ (items : List T) (q : SafeQueue T),
      (q.pushAll items).mQ = q.mQ ++ items := by
  intro items
  induction items with
  | nil => intro q; simp [pushAll]
  | cons i is ih =>
    intro q
    have h := ih (q.Push i)
    simp only [pushAll, List.foldl_cons] at h ⊢
    rw [h]
    simp [Push]

theorem pushAll_count {T : Type} :
    ∀ (items : List T) (q : SafeQueue T),
      (q.pushAll items).mUnfinishedTasks =
        q.mUnfinishedTasks + items.length := by
  intro items
  induction items with
  | nil => intro q; simp [pushAll]
  | cons i is ih =>
    intro q
    have h := ih (q.Push i)
    simp only [pushAll, List.foldl_cons] at h ⊢
    rw [h]
    simp [Push]
    omega

theorem popN_take {T : Type} :
    ∀ (es rest : List T) (q : SafeQueue T), q.mQ = es ++ rest →
      popN es.length q = some (es, ⟨rest, q.mUnfinishedTasks⟩) := by
  intro es
  induction es with
  | nil =>
    intro rest q h
    obtain ⟨mq, c⟩ := q
    simp at h
    simp [popN, h]
  | cons e es2 ih =>
    intro rest q h
    have hpop : q.Pop = some (e, ⟨es2 ++ rest, q.mUnfinishedTasks⟩) := by
      simp [Pop, h]
    have hrec := ih rest ⟨es2 ++ rest, q.mUnfinishedTasks⟩ rfl
    simp only [List.length_cons, popN, hpop, hrec]

/-- Claim C1: FIFO delivery — starting from an empty buffer, after a single
producer enqueues `es` via `Push`, a consumer performing `es.length`
dequeues via `Pop` receives exactly `es` in enqueue order: no reordering,
loss, or duplication (the buffer ends empty). -/
theorem C1_fifo_order {T : Type} (q : SafeQueue T) (es : List T)
    (h : q.mQ = []) :
    popN es.length (q.pushAll es) =
      some (es, ⟨[], q.mUnfinishedTasks + es.length⟩) := by
  have hmq : (q.pushAll es).mQ = es ++ [] := by
    rw [pushAll_mQ es q, h]; simp
  have := popN_take es [] (q.pushAll es) hmq
  rw [this, pushAll_count es q]

/-- Witness for C1: pushing `[10, 20, 30]` onto a fresh queue and popping
three times yields exactly `[10, 20, 30]`. -/
theorem C1_fifo_order_witness :
    (emptyQueue : SafeQueue Nat).mQ = [] ∧
    popN 3 ((emptyQueue : SafeQueue Nat).pushAll [10, 20, 30]) =
      some ([10, 20, 30], ⟨[], 0 + 3⟩) :=
  ⟨rfl, C1_fifo_order emptyQueue [10, 20, 30] rfl⟩

/-- Claim C7: `PushAndJoin(item)` first performs the enqueue step under the
lock — appending `item` at the tail and incrementing `mUnfinishedTasks` by
one — and then blocks on the wait predicate, which holds exactly when
`mUnfinishedTasks = 0`; hence on return the drain predicate
(`JoinReturns`) holds. -/
theorem C7_push_and_join {T : Type} (q : SafeQueue T) (item : T) :
    (q.PushAndJoinStep item).mQ = q.mQ ++ [item] ∧
    (q.PushAndJoinStep item).mUnfinishedTasks = q.mUnfinishedTasks + 1 ∧
    (∀ s : SafeQueue T,
      PushAndJoinReturns s = true ↔ s.mUnfinishedTasks = 0) ∧
    (∀ s : SafeQueue T,
      PushAndJoinReturns s = true → JoinReturns s = true) := by
  refine ⟨rfl, rfl, ?_, ?_⟩
  · intro s
    simp [PushAndJoinReturns]
  · intro s hs
    simpa [PushAndJoinReturns, JoinReturns] using hs

/-- Witness for C7 at the concrete state `⟨[1], 1⟩` and item `2`. -/
theorem C7_push_and_join_witness :
    ((⟨[1], 1⟩ : SafeQueue Nat).PushAndJoinStep 2).mQ = [1] ++ [2] ∧
    ((⟨[1], 1⟩ : SafeQueue Nat).PushAndJoinStep 2).mUnfinishedTasks = 1 + 1 ∧
    (∀ s : SafeQueue Nat,
      PushAndJoinReturns s = true ↔ s.mUnfinishedTasks = 0) ∧
    (∀ s : SafeQueue Nat,
      PushAndJoinReturns s = true → JoinReturns s = true) :=
  C7_push_and_join ⟨[1], 1⟩ 2

theorem runOps_counter {T : Type} :
    ∀ (ops : List (Op T)) (q qf : SafeQueue T),
      runOps ops q = some qf →
      qf.mUnfinishedTasks + countTaskDones ops =
        q.mUnfinishedTasks + countEnqueues ops := by
  intro ops
  induction ops with
  | nil =>
    intro q qf h
    simp [runOps] at h
    subst h
    simp [countTaskDones, countEnqueues]
  | cons op ops ih =>
    intro q qf h
    cases op with
    | push item =>
      simp only [runOps, applyOp] at h
      have := ih _ _ h
      simp only [countTaskDones, countEnqueues, Push] at this ⊢
      omega
    | emplace item =>
      simp only [runOps, applyOp] at h
      have := ih _ _ h
      simp only [countTaskDones, countEnqueues, Emplace, Push] at this ⊢
      omega
    | pop =>
      simp only [runOps, applyOp] at h
      cases hq : q.mQ with
      | nil =>
        rw [show q.Pop = none by simp [Pop, hq]] at h
        simp at h
      | cons x xs =>
        rw [show q.Pop = some (x, ⟨xs, q.mUnfinishedTasks⟩) by
          simp [Pop, hq]] at h
        simp only at h
        have := ih _ _ h
        simp only [countTaskDones, countEnqueues] at this ⊢
        omega
    | taskDone =>
      simp only [runOps, applyOp, TaskDone] at h
      by_cases hc : 0 < q.mUnfinishedTasks
      · rw [if_pos hc] at h
        simp only at h
        have := ih _ _ h
        simp only [countTaskDones, countEnqueues] at this ⊢
        omega
      · rw [if_neg hc] at h
        simp at h

/-- Claim C2: counter invariant (I1) and drain correctness — for every
linearized interleaving of operations that completes from a fresh queue,
`mUnfinishedTasks` equals the number of `Push`/`Emplace` calls minus the
number of `TaskDone` signals; with exactly as many completions as
enqueues, the drain predicate holds and `Join` returns, and with fewer
completions the predicate is false and `Join` stays blocked. -/
theorem C2_counter_invariant {T : Type} (ops : List (Op T))
    (qf : SafeQueue T) (h : runOps ops (emptyQueue : SafeQueue T) = some qf) :
    countTaskDones ops ≤ countEnqueues ops ∧
    qf.mUnfinishedTasks = countEnqueues ops - countTaskDones ops ∧
    (JoinReturns qf = true ↔ countTaskDones ops = countEnqueues ops) ∧
    (countTaskDones ops < countEnqueues ops → JoinReturns qf = false) := by
  have hc := runOps_counter ops emptyQueue qf h
  simp only [emptyQueue] at hc
  have hJ : JoinReturns qf = true ↔ qf.mUnfinishedTasks = 0 := by
    simp [JoinReturns]
  have hJf : JoinReturns qf = false ↔ ¬ qf.mUnfinishedTasks = 0 := by
    simp [JoinReturns]
  refine ⟨by omega, by omega, ?_, ?_⟩
  · rw [hJ]; omega
  · intro hlt; rw [hJf]; omega

/-- Witness for C2 at the concrete history
`[push 1, push 2, pop, taskDone]` run from a fresh queue. -/
theorem C2_counter_invariant_witness :
    runOps [Op.push 1, Op.push 2, Op.pop, Op.taskDone]
        (emptyQueue : SafeQueue Nat) = some ⟨[2], 1⟩ ∧
    (countTaskDones [Op.push 1, Op.push 2, Op.pop, Op.taskDone] ≤
        countEnqueues [Op.push (1 : Nat), Op.push 2, Op.pop, Op.taskDone] ∧
      (⟨[2], 1⟩ : SafeQueue Nat).mUnfinishedTasks =
        countEnqueues [Op.push (1 : Nat), Op.push 2, Op.pop, Op.taskDone] -
          countTaskDones [Op.push (1 : Nat), Op.push 2, Op.pop, Op.taskDone] ∧
      (JoinReturns (⟨[2], 1⟩ : SafeQueue Nat) = true ↔
        countTaskDones [Op.push (1 : Nat), Op.push 2, Op.pop, Op.taskDone] =
          countEnqueues [Op.push (1 : Nat), Op.push 2, Op.pop, Op.taskDone]) ∧
      (countTaskDones [Op.push (1 : Nat), Op.push 2, Op.pop, Op.taskDone] <
          countEnqueues [Op.push (1 : Nat), Op.push 2, Op.pop, Op.taskDone] →
        JoinReturns (⟨[2], 1⟩ : SafeQueue Nat) = false)) :=
  ⟨by decide,
    C2_counter_invariant [Op.push 1, Op.push 2, Op.pop, Op.taskDone]
      ⟨[2], 1⟩ (by decide)⟩

theorem moveChain_calls (a : Nat) :
    ∀ n : Nat, allFinalizeCalls (moveChain n ⟨some a⟩) = [a] := by
  intro n
  induction n with
  | zero => simp [moveChain, allFinalizeCalls, finalizeCalls]
  | succ n ih =>
    simp only [moveChain, moveCtor, allFinalizeCalls, finalizeCalls]
    simpa using ih

/-- Claim C5: guard exactly-once — a guard obtained responsible (bound to
queue `a`) and moved through any number `n` of scopes causes, over the
finalization of every guard object in the chain, exactly one `TaskDone`
invocation (on `a`); finalizing a moved-from (inert) guard invokes
nothing. -/
theorem C5_guard_exactly_once (g : TaskDoneGuard) (a : Nat) (n : Nat)
    (h : g.mQ = some a) :
    allFinalizeCalls (moveChain n g) = [a] ∧
    finalizeCalls ⟨none⟩ = [] := by
  obtain ⟨mq⟩ := g
  simp only at h
  subst h
  exact ⟨moveChain_calls a n, rfl⟩

/-- Witness for C5: a guard bound to queue 7 moved through three scopes. -/
theorem C5_guard_exactly_once_witness :
    (⟨some 7⟩ : TaskDoneGuard).mQ = some 7 ∧
    (allFinalizeCalls (moveChain 3 ⟨some 7⟩) = [7] ∧
      finalizeCalls ⟨none⟩ = []) :=
  ⟨rfl, C5_guard_exactly_once ⟨some 7⟩ 7 3 rfl⟩

/-- Claim C6 counterexample: the claim says `Inert` is terminal/absorbing —
no operation ever takes an inert guard back to responsible.  But move
assignment with an inert destination and a responsible source does exactly
that: for `dst = ⟨none⟩` (inert) and `src = ⟨some 0⟩`, after
`dst = std::move(src)` the destination is responsible. -/
theorem C6_inert_not_absorbing_cex :
    Inert (⟨none⟩ : TaskDoneGuard) = true ∧
    Responsible (moveAssign ⟨none⟩ ⟨some 0⟩).1 = true := by
  decide

/-- Claim C6 as amended: move-out (as move-construction or
move-assignment source), and self-move-assignment, take a guard to
`Inert`; finalizing an inert guard invokes nothing; and the destination
of a move takes exactly the source's responsibility state — so the only
way a guard becomes (or re-becomes) responsible is receiving from a
responsible source, and `Inert` is absorbing under every operation except
being the destination of such a move assignment. -/
theorem C6_guard_state_machine_amended (dst src g : TaskDoneGuard) :
    Inert (moveCtor g).2 = true ∧
    Responsible (moveCtor g).1 = Responsible g ∧
    Inert (moveAssign dst src).2 = true ∧
    Responsible (moveAssign dst src).1 = Responsible src ∧
    Inert (selfMoveAssign g) = true ∧
    (Inert g = true → finalizeCalls g = []) := by
  refine ⟨rfl, rfl, rfl, rfl, rfl, ?_⟩
  intro h
  cases hg : g.mQ with
  | none => simp [finalizeCalls, hg]
  | some a => simp [Inert, hg] at h

/-- Witness for C6 (amended) at concrete guards `⟨some 1⟩`, `⟨some 2⟩`,
`⟨none⟩`. -/
theorem C6_guard_state_machine_amended_witness :
    Inert (moveCtor ⟨none⟩).2 = true ∧
    Responsible (moveCtor ⟨none⟩).1 = Responsible ⟨none⟩ ∧
    Inert (moveAssign ⟨some 1⟩ ⟨some 2⟩).2 = true ∧
    Responsible (moveAssign ⟨some 1⟩ ⟨some 2⟩).1 = Responsible ⟨some 2⟩ ∧
    Inert (selfMoveAssign ⟨none⟩) = true ∧
    (Inert (⟨none⟩ : TaskDoneGuard) = true → finalizeCalls ⟨none⟩ = []) :=
  C6_guard_state_machine_amended ⟨some 1⟩ ⟨some 2⟩ ⟨none⟩

/-- Claim C9: move assignment onto a responsible guard overwrites the
destination's prior binding with the source's binding and inertizes the
source, while making no `TaskDone` call — the destination's previously
pending completion (which finalization would have delivered as `[a]`) is
discarded: finalizing both post-assignment guards delivers only the
source's calls.  Self-move-assignment of a responsible guard makes it
inert, so its completion is never signaled. -/
theorem C9_move_assign_drops_completion (dst src : TaskDoneGuard) (a : Nat)
    (h : dst.mQ = some a) :
    (moveAssign dst src).1.mQ = src.mQ ∧
    (moveAssign dst src).2.mQ = none ∧
    allFinalizeCalls [(moveAssign dst src).1, (moveAssign dst src).2] =
      finalizeCalls src ∧
    finalizeCalls dst = [a] ∧
    selfMoveAssign dst = ⟨none⟩ ∧
    finalizeCalls (selfMoveAssign dst) = [] := by
  refine ⟨rfl, rfl, ?_, ?_, rfl, rfl⟩
  · simp [allFinalizeCalls, moveAssign, finalizeCalls]
  · simp [finalizeCalls, h]

/-- Witness for C9 with `dst` bound to queue 0 and `src` bound to
queue 1. -/
theorem C9_move_assign_drops_completion_witness :
    (⟨some 0⟩ : TaskDoneGuard).mQ = some 0 ∧
    ((moveAssign ⟨some 0⟩ ⟨some 1⟩).1.mQ = (⟨some 1⟩ : TaskDoneGuard).mQ ∧
      (moveAssign ⟨some 0⟩ ⟨some 1⟩).2.mQ = none ∧
      allFinalizeCalls
          [(moveAssign ⟨some 0⟩ ⟨some 1⟩).1,
            (moveAssign ⟨some 0⟩ ⟨some 1⟩).2] =
        finalizeCalls ⟨some 1⟩ ∧
      finalizeCalls ⟨some 0⟩ = [0] ∧
      selfMoveAssign ⟨some 0⟩ = ⟨none⟩ ∧
      finalizeCalls (selfMoveAssign ⟨some 0⟩) = []) :=
  ⟨rfl, C9_move_assign_drops_completion ⟨some 0⟩ ⟨some 1⟩ 0 rfl⟩

theorem sizetDec_lt (w c : Nat) : sizetDec w c < 2 ^ w := by
  have h2 : 0 < 2 ^ w := by positivity
  exact Nat.mod_lt _ h2

theorem sizetDec_iterate (w : Nat) :
    ∀ (k c : Nat), c < 2 ^ w →
      (sizetDec w)^[k] c = (c + k * (2 ^ w - 1)) % 2 ^ w := by
  intro k
  induction k with
  | zero =>
    intro c hc
    simp [Nat.mod_eq_of_lt hc]
  | succ k ih =>
    intro c hc
    rw [Function.iterate_succ_apply, ih (sizetDec w c) (sizetDec_lt w c)]
    simp only [sizetDec]
    rw [Nat.mod_add_mod]
    congr 1
    ring

theorem mulPredMod (w : Nat) :
    ∀ m : Nat, 0 < m → m ≤ 2 ^ w → m * (2 ^ w - 1) % 2 ^ w = 2 ^ w - m := by
  have key : ∀ n : Nat, n + 1 ≤ 2 ^ w →
      (n + 1) * (2 ^ w - 1) = (2 ^ w - (n + 1)) + n * 2 ^ w := by
    intro n
    induction n with
    | zero => intro h; omega
    | succ n ih =>
      intro h
      have hn := ih (by omega)
      have e1 : (n + 1 + 1) * (2 ^ w - 1) =
          (n + 1) * (2 ^ w - 1) + (2 ^ w - 1) := by ring
      have e2 : (n + 1) * 2 ^ w = n * 2 ^ w + 2 ^ w := by ring
      omega
  intro m hm0 hmp
  obtain ⟨n, rfl⟩ : ∃ n, m = n + 1 := ⟨m - 1, by omega⟩
  rw [key n hmp, Nat.add_mul_mod_self_right]
  exact Nat.mod_eq_of_lt (by omega)

theorem sizetDec_iterate_from_wrap (w k : Nat) (hw : 0 < w)
    (hk : k + 1 ≤ 2 ^ w) :
    (sizetDec w)^[k] (2 ^ w - 1) = 2 ^ w - (k + 1) := by
  have h2 : 1 < 2 ^ w := by
    calc 1 < 2 ^ 1 := by norm_num
    _ ≤ 2 ^ w := Nat.pow_le_pow_right (by norm_num) hw
  rw [sizetDec_iterate w k (2 ^ w - 1) (by omega)]
  have e : (2 ^ w - 1) + k * (2 ^ w - 1) = (k + 1) * (2 ^ w - 1) := by ring
  rw [e, mulPredMod w (k + 1) (by omega) hk]

/-- Claim C10 counterexample: the claim's final clause says that after the
unchecked wrap the counter "cannot reach zero by further completions
alone"; but the counter is `std::size_t` arithmetic modulo `2 ^ 64`, so
starting from a fresh queue, one unchecked `TaskDone` wraps the counter to
`2 ^ 64 - 1` and `2 ^ 64 - 1` further unchecked decrements bring it back
to exactly 0. -/
theorem C10_wrap_reaches_zero_cex :
    (TaskDoneNDEBUG 64 (emptyQueue : SafeQueue Nat)).1.mUnfinishedTasks =
      2 ^ 64 - 1 ∧
    (sizetDec 64)^[2 ^ 64 - 1]
        ((TaskDoneNDEBUG 64 (emptyQueue : SafeQueue Nat)).1.mUnfinishedTasks)
      = 0 := by
  have h1 : (TaskDoneNDEBUG 64
      (emptyQueue : SafeQueue Nat)).1.mUnfinishedTasks = 2 ^ 64 - 1 := by
    simp only [TaskDoneNDEBUG, emptyQueue, sizetDec, Nat.zero_add]
    exact Nat.mod_eq_of_lt (by norm_num)
  refine ⟨h1, ?_⟩
  rw [h1, sizetDec_iterate_from_wrap 64 (2 ^ 64 - 1) (by norm_num)
    (by norm_num)]
  norm_num

/-- Claim C10 as amended: with the assertion compiled out, calling
`TaskDone` on `mUnfinishedTasks == 0` wraps the `std::size_t` counter to
`2 ^ w - 1` (arithmetic modulo `2 ^ w`) instead of stopping, issues no
drain notification, and leaves `Join` blocked; the counter stays nonzero
under any fewer than `2 ^ w - 1` further unchecked completions and reaches
zero again only after exactly `2 ^ w - 1` of them. -/
theorem C10_ndebug_wrap_amended {T : Type} (w : Nat) (q : SafeQueue T)
    (hw : 0 < w) (h : q.mUnfinishedTasks = 0) :
    (TaskDoneNDEBUG w q).1.mUnfinishedTasks = 2 ^ w - 1 ∧
    (TaskDoneNDEBUG w q).2 = false ∧
    JoinReturns (TaskDoneNDEBUG w q).1 = false ∧
    (∀ k : Nat, k < 2 ^ w - 1 →
      (sizetDec w)^[k] ((TaskDoneNDEBUG w q).1.mUnfinishedTasks) ≠ 0) ∧
    (sizetDec w)^[2 ^ w - 1]
      ((TaskDoneNDEBUG w q).1.mUnfinishedTasks) = 0 := by
  have h2 : 1 < 2 ^ w := by
    calc 1 < 2 ^ 1 := by norm_num
    _ ≤ 2 ^ w := Nat.pow_le_pow_right (by norm_num) hw
  have hd : sizetDec w q.mUnfinishedTasks = 2 ^ w - 1 := by
    rw [h]
    simp only [sizetDec, Nat.zero_add]
    exact Nat.mod_eq_of_lt (by omega)
  have hproj : (TaskDoneNDEBUG w q).1.mUnfinishedTasks = 2 ^ w - 1 := by
    simp only [TaskDoneNDEBUG]
    exact hd
  refine ⟨hproj, ?_, ?_, ?_, ?_⟩
  · show (sizetDec w q.mUnfinishedTasks == 0) = false
    rw [hd]
    simp only [beq_eq_false_iff_ne, ne_eq]
    omega
  · simp only [JoinReturns, hproj, beq_eq_false_iff_ne, ne_eq]
    omega
  · intro k hk
    rw [hproj, sizetDec_iterate_from_wrap w k hw (by omega)]
    omega
  · rw [hproj, sizetDec_iterate_from_wrap w (2 ^ w - 1) hw (by omega)]
    omega

/-- Witness for C10 (amended) at word width 1 and a fresh queue. -/
theorem C10_ndebug_wrap_amended_witness :
    0 < 1 ∧ (emptyQueue : SafeQueue Nat).mUnfinishedTasks = 0 ∧
    ((TaskDoneNDEBUG 1 (emptyQueue : SafeQueue Nat)).1.mUnfinishedTasks =
        2 ^ 1 - 1 ∧
      (TaskDoneNDEBUG 1 (emptyQueue : SafeQueue Nat)).2 = false ∧
      JoinReturns (TaskDoneNDEBUG 1 (emptyQueue : SafeQueue Nat)).1 = false ∧
      (∀ k : Nat, k < 2 ^ 1 - 1 →
        (sizetDec 1)^[k]
          ((TaskDoneNDEBUG 1
            (emptyQueue : SafeQueue Nat)).1.mUnfinishedTasks) ≠ 0) ∧
      (sizetDec 1)^[2 ^ 1 - 1]
        ((TaskDoneNDEBUG 1
          (emptyQueue : SafeQueue Nat)).1.mUnfinishedTasks) = 0) :=
  ⟨by decide, rfl, C10_ndebug_wrap_amended 1 emptyQueue (by decide) rfl⟩

end rwols
